import Mathlib

/-!
Shallow embedding of the streaming narrative state synchronizer of
`src/index.tsx` (a browser text-adventure client).

The embedded core:
* `midStreamDisplay` — the per-chunk display update
  `responseText.replace(/\[STATUS\].*\[\/STATUS\]/s, '').trim()` (lines 149, 169);
* `parseAndUpdateState` — the final pass (lines 71-86) built on the regex
  `/\[STATUS\]HEALTH:(\d+),INVENTORY:(.*?)\[\/STATUS\]/s`;
* `runTurn` / `streamTrace` — the submit-listener turn (lines 133-158):
  disable the form, stream chunks updating only the display, then parse,
  commit and re-enable; a thrown stream error aborts the handler (it has no
  try/catch), skipping the final parse and the re-enable.

Strings are modelled as Lean `String`s, manipulated through their character
lists; the two regexes are modelled by explicit leftmost scanners with the
greedy/lazy quantifier semantics spelled out (`greedyFind`, `markerFind`).
-/

namespace Adventure

/-- Whitespace for trimming, as JavaScript `trim` treats the ASCII range. -/
def isWS (c : Char) : Bool :=
  c = ' ' || c = '\t' || c = '\n' || c = '\r' || c = '\x0b' || c = '\x0c'

/-- Drop whitespace from both ends of a character list (models `.trim()`). -/
def trimChars (cs : List Char) : List Char :=
  ((cs.dropWhile isWS).reverse.dropWhile isWS).reverse

/-- String-level trim (models JavaScript `String.prototype.trim`). -/
def jsTrim (s : String) : String :=
  String.mk (trimChars s.data)

/-- Does `pat` occur as a contiguous run somewhere in the list? -/
def hasSub (pat : List Char) : List Char → Bool
  | [] => decide (pat = [])
  | c :: cs => pat.isPrefixOf (c :: cs) || hasSub pat cs

/-- Numeric value of a decimal digit character. -/
def digitVal (c : Char) : Nat := c.toNat - 48

/-- Value of a run of decimal digit characters, most significant first. -/
def digitsToNat (ds : List Char) : Nat :=
  ds.foldl (fun a c => a * 10 + digitVal c) 0

/-- The sign-and-digits step of `parseInt` once leading whitespace is gone:
an optional sign, then the longest run of decimal digits; `none` is `NaN`. -/
def jsParseIntChars : List Char → Option Int
  | [] => none
  | c :: rest =>
      if c = '-' then
        if (rest.takeWhile Char.isDigit).isEmpty then none
        else some (-(digitsToNat (rest.takeWhile Char.isDigit) : Int))
      else if c = '+' then
        if (rest.takeWhile Char.isDigit).isEmpty then none
        else some ((digitsToNat (rest.takeWhile Char.isDigit) : Int))
      else
        if ((c :: rest).takeWhile Char.isDigit).isEmpty then none
        else some ((digitsToNat ((c :: rest).takeWhile Char.isDigit) : Int))

/-- Models JavaScript `parseInt(s, 10)`: skip leading whitespace, an optional
sign, then the longest run of decimal digits; `none` is `NaN` (no digits). -/
def jsParseInt (s : String) : Option Int :=
  jsParseIntChars (s.data.dropWhile isWS)

/-- Models `String.prototype.split(',')` at the character-list level. -/
def splitComma : List Char → List (List Char)
  | [] => [[]]
  | c :: cs =>
      if c = ',' then [] :: splitComma cs
      else
        match splitComma cs with
        | [] => [[c]]
        | h :: t => (c :: h) :: t

/-- The start sentinel literal of the marker grammar. -/
def startSentinel : List Char := "[STATUS]".data

/-- The end sentinel literal of the marker grammar. -/
def endSentinel : List Char := "[/STATUS]".data

/-- The health-field literal that follows the start sentinel. -/
def healthTag : List Char := "HEALTH:".data

/-- The inventory-field literal that follows the digits. -/
def invTag : List Char := ",INVENTORY:".data

/-- Strip the literal `pat` from the front of `cs`, if present. -/
def stripLit (pat cs : List Char) : Option (List Char) :=
  if pat.isPrefixOf cs then some (cs.drop pat.length) else none

/-- Split at the first occurrence of `pat`: (run before it, run after it).
Models the lazy `(.*?)` followed by a literal. -/
def splitFirst (pat : List Char) : List Char → Option (List Char × List Char)
  | [] => if pat.isEmpty then some ([], []) else none
  | c :: cs =>
      if pat.isPrefixOf (c :: cs) then some ([], (c :: cs).drop pat.length)
      else
        match splitFirst pat cs with
        | some (pre, post) => some (c :: pre, post)
        | none => none

/-- Split at the last occurrence of `pat`: (run before it, run after it).
Models the greedy `.*` followed by a literal. -/
def splitLast (pat : List Char) : List Char → Option (List Char × List Char)
  | [] => if pat.isEmpty then some ([], []) else none
  | c :: cs =>
      match splitLast pat cs with
      | some (pre, post) => some (c :: pre, post)
      | none =>
          if pat.isPrefixOf (c :: cs) then some ([], (c :: cs).drop pat.length)
          else none

/-- Match of `/\[STATUS\].*\[\/STATUS\]/s` anchored at the current position:
the start sentinel, then (greedily) everything up to the last end sentinel.
Returns the suffix after the match. -/
def greedyMatchAt (cs : List Char) : Option (List Char) :=
  (stripLit startSentinel cs).bind fun rest =>
    (splitLast endSentinel rest).map Prod.snd

/-- Leftmost match of `/\[STATUS\].*\[\/STATUS\]/s`: (before, after). -/
def greedyFind : List Char → Option (List Char × List Char)
  | [] => none
  | c :: cs =>
      match greedyMatchAt (c :: cs) with
      | some post => some ([], post)
      | none =>
          match greedyFind cs with
          | some (pre, post) => some (c :: pre, post)
          | none => none

/-- One mid-stream display update (lines 149 and 169):
`responseText.replace(/\[STATUS\].*\[\/STATUS\]/s, '').trim()`. -/
def midStreamDisplay (s : String) : String :=
  match greedyFind s.data with
  | some (pre, post) => String.mk (trimChars (pre ++ post))
  | none => jsTrim s

/-- Match of `/\[STATUS\]HEALTH:(\d+),INVENTORY:(.*?)\[\/STATUS\]/s` anchored
at the current position: returns (health capture, inventory capture, suffix
after the match). The digit run is forced maximal (the next literal starts
with a comma, which is not a digit) and the lazy capture ends at the first
end sentinel. -/
def markerMatchAt (cs : List Char) : Option (List Char × List Char × List Char) :=
  (stripLit startSentinel cs).bind fun r1 =>
    (stripLit healthTag r1).bind fun r2 =>
      if (r2.takeWhile Char.isDigit).isEmpty then none
      else
        (stripLit invTag (r2.dropWhile Char.isDigit)).bind fun r3 =>
          (splitFirst endSentinel r3).map fun x =>
            (r2.takeWhile Char.isDigit, x.1, x.2)

/-- Leftmost match of the status regex:
(text before, health capture, inventory capture, text after). -/
def markerFind : List Char → Option (List Char × List Char × List Char × List Char)
  | [] => none
  | c :: cs =>
      match markerMatchAt (c :: cs) with
      | some (h, inv, post) => some ([], h, inv, post)
      | none =>
          match markerFind cs with
          | some (pre, h, inv, post) => some (c :: pre, h, inv, post)
          | none => none

/-- The game state held in `playerHealth` / `playerInventory` (lines 18-19). -/
structure GameState where
  health : Int
  inventory : List String
deriving DecidableEq, Repr

/-- The state at session start: 100 health, empty inventory (lines 18-19). -/
def initialState : GameState := ⟨100, []⟩

/-- Line 79: the captured inventory field, if truthy (non-empty), is split on
commas, each item trimmed, and empty items dropped (`filter(Boolean)`). -/
def parseInventory (inv : List Char) : List String :=
  if inv.isEmpty then []
  else
    ((splitComma inv).map (fun item => String.mk (trimChars item))).filter
      (fun s => decide (s ≠ ""))

/-- Lines 76-81: commit the two captured fields over the previous state.
`parseInt` of the health capture falls back to the previous health on `NaN`;
the inventory is replaced outright. -/
def applyMatch (st : GameState) (healthCap invCap : List Char) : GameState :=
  { health :=
      match jsParseInt (String.mk healthCap) with
      | none => st.health
      | some v => v
    inventory := parseInventory invCap }

/-- Models `parseAndUpdateState` (lines 71-86): if the status regex matches,
commit the captures and return the text with the matched span replaced by
nothing, trimmed; otherwise leave the state alone and return the trimmed text. -/
def parseAndUpdateState (st : GameState) (responseText : String) : GameState × String :=
  match markerFind responseText.data with
  | some (pre, h, inv, post) =>
      (applyMatch st h inv, String.mk (trimChars (pre ++ post)))
  | none => (st, jsTrim responseText)

/-- The observable state of one turn: the game state variables, whether the
prompt form is disabled (the busy gate, `setFormDisabled`), and the text
currently shown in the streaming message element. -/
structure TurnState where
  gameState : GameState
  formDisabled : Bool
  displayed : String
deriving DecidableEq, Repr

/-- The page state when a turn begins: form enabled, nothing streamed yet. -/
def initialTurn : TurnState := ⟨initialState, false, ""⟩

/-- The streaming loop of the submit listener (lines 145-150): each chunk is
appended to `responseText` and the displayed text is recomputed from the whole
accumulated text; nothing else is touched. Returns the state after the loop
and the accumulated text. -/
def streamLoop (ts : TurnState) (acc : String) : List String → TurnState × String
  | [] => (ts, acc)
  | chunk :: rest =>
      let acc' := acc ++ chunk
      streamLoop { ts with displayed := midStreamDisplay acc' } acc' rest

/-- The turn states published after each iteration of the streaming loop, in
order: what an observer of the page sees while the stream is still running. -/
def streamTrace (ts : TurnState) (acc : String) : List String → List TurnState
  | [] => []
  | chunk :: rest =>
      let acc' := acc ++ chunk
      let ts' := { ts with displayed := midStreamDisplay acc' }
      ts' :: streamTrace ts' acc' rest

/-- The accumulated text after each iteration of the streaming loop. -/
def accTexts (acc : String) : List String → List String
  | [] => []
  | chunk :: rest => (acc ++ chunk) :: accTexts (acc ++ chunk) rest

/-- Models one run of the submit listener (lines 133-158) after a non-empty
prompt: the form is disabled, the chunks are streamed, and — only if the
stream completes (`completed = true`) — the final parse commits the state,
the final narrative replaces the display and the form is re-enabled.
`completed = false` models the fragment source throwing after the given
chunks: the handler has no try/catch, so the rest of its body is skipped. -/
def runTurn (ts : TurnState) (chunks : List String) (completed : Bool) : TurnState :=
  let res := streamLoop { ts with formDisabled := true } "" chunks
  if completed then
    { gameState := (parseAndUpdateState res.1.gameState res.2).1
      formDisabled := false
      displayed := (parseAndUpdateState res.1.gameState res.2).2 }
  else res.1

/-- The inventory rule as the spec words it (§4.2): split on the separator,
trim each item, drop items that are empty after trimming. Stated from the
spec's words, separately from `parseInventory` (the code's path, which
short-circuits a falsy capture), so the two can be compared. -/
def specInventoryParse (inv : List Char) : List String :=
  ((splitComma inv).map (fun item => String.mk (trimChars item))).filter
    (fun s => decide (s ≠ ""))

/-- The GameState invariant of §3: health never negative, every inventory
entry a non-empty trimmed string. -/
def GoodState (st : GameState) : Prop :=
  0 ≤ st.health ∧ ∀ item ∈ st.inventory, item ≠ "" ∧ jsTrim item = item

/-- The states the session's game state can reach: the initial value, and
whatever one completed turn's final parse produces from a reachable state. -/
inductive Reachable : GameState → Prop
  | init : Reachable initialState
  | step (st : GameState) (s : String) :
      Reachable st → Reachable (parseAndUpdateState st s).1

/-! ## Lemmas about trimming -/

theorem dropWhile_head_false (p : Char → Bool) :
    ∀ l : List Char, l.dropWhile p = [] ∨
      ∃ a as, l.dropWhile p = a :: as ∧ p a = false
  | [] => Or.inl rfl
  | c :: cs => by
      cases hpc : p c with
      | true => simpa [List.dropWhile_cons, hpc] using dropWhile_head_false p cs
      | false => exact Or.inr ⟨c, cs, by simp [List.dropWhile_cons, hpc], hpc⟩

theorem dropWhile_dropWhile (p : Char → Bool) (l : List Char) :
    (l.dropWhile p).dropWhile p = l.dropWhile p := by
  rcases dropWhile_head_false p l with h | ⟨a, as, h, hpa⟩
  · simp [h]
  · simp [h, List.dropWhile_cons, hpa]

theorem dropWhile_append_singleton (p : Char → Bool) (a : Char) (hpa : p a = false) :
    ∀ xs : List Char, (xs ++ [a]).dropWhile p = xs.dropWhile p ++ [a]
  | [] => by simp [List.dropWhile_cons, hpa]
  | c :: cs => by
      cases hpc : p c with
      | true =>
          simpa [List.dropWhile_cons, hpc]
            using dropWhile_append_singleton p a hpa cs
      | false => simp [List.dropWhile_cons, hpc]

theorem trim_reverse_cons (a : Char) (hpa : isWS a = false) (as : List Char) :
    ((a :: as).reverse.dropWhile isWS).reverse
      = a :: (as.reverse.dropWhile isWS).reverse := by
  rw [List.reverse_cons, dropWhile_append_singleton isWS a hpa, List.reverse_append]
  simp

theorem dropWhile_trimChars (l : List Char) :
    (trimChars l).dropWhile isWS = trimChars l := by
  unfold trimChars
  rcases dropWhile_head_false isWS l with h | ⟨a, as, h, hpa⟩
  · simp [h]
  · rw [h, trim_reverse_cons a hpa as, List.dropWhile_cons, hpa]
    simp

theorem trimChars_idem (l : List Char) : trimChars (trimChars l) = trimChars l := by
  have h1 := dropWhile_trimChars l
  show (((trimChars l).dropWhile isWS).reverse.dropWhile isWS).reverse = trimChars l
  rw [h1]
  unfold trimChars
  rw [List.reverse_reverse, dropWhile_dropWhile]

/-! ## Lemmas about substring search and the two scanners -/

theorem hasSub_cons_false {pat : List Char} {c : Char} {cs : List Char}
    (h : hasSub pat (c :: cs) = false) :
    pat.isPrefixOf (c :: cs) = false ∧ hasSub pat cs = false := by
  unfold hasSub at h
  exact Bool.or_eq_false_iff.mp h

theorem hasSub_drop_false {pat : List Char} :
    ∀ (cs : List Char), hasSub pat cs = false →
      ∀ n, hasSub pat (cs.drop n) = false
  | cs, h, 0 => by simpa using h
  | [], h, _ + 1 => by simpa using h
  | _ :: cs, h, n + 1 => hasSub_drop_false cs (hasSub_cons_false h).2 n

theorem stripLit_eq_some {pat cs r : List Char} (h : stripLit pat cs = some r) :
    pat.isPrefixOf cs = true ∧ r = cs.drop pat.length := by
  unfold stripLit at h
  split at h
  · exact ⟨by assumption, (Option.some.inj h).symm⟩
  · cases h

theorem splitLast_eq_none {pat : List Char} (hne : ¬pat.isEmpty = true) :
    ∀ cs : List Char, hasSub pat cs = false → splitLast pat cs = none
  | [], _ => by unfold splitLast; rw [if_neg hne]
  | c :: cs, h => by
      obtain ⟨h1, h2⟩ := hasSub_cons_false h
      unfold splitLast
      rw [splitLast_eq_none hne cs h2, h1]
      rfl

theorem greedyMatchAt_eq_none {cs : List Char}
    (h : hasSub endSentinel cs = false) : greedyMatchAt cs = none := by
  unfold greedyMatchAt stripLit
  split
  · simp only [Option.some_bind]
    rw [splitLast_eq_none (by decide) _ (hasSub_drop_false cs h _)]
    rfl
  · rfl

theorem greedyFind_eq_none :
    ∀ {cs : List Char}, hasSub endSentinel cs = false → greedyFind cs = none
  | [], _ => rfl
  | c :: cs, h => by
      simp only [greedyFind]
      rw [greedyMatchAt_eq_none h, greedyFind_eq_none (hasSub_cons_false h).2]

theorem midStreamDisplay_eq_trim {s : String}
    (h : hasSub endSentinel s.data = false) : midStreamDisplay s = jsTrim s := by
  unfold midStreamDisplay
  rw [greedyFind_eq_none h]

theorem markerMatchAt_eq_none {cs : List Char}
    (h : startSentinel.isPrefixOf cs = false) : markerMatchAt cs = none := by
  unfold markerMatchAt stripLit
  rw [h]
  rfl

theorem markerFind_eq_none :
    ∀ {cs : List Char}, hasSub startSentinel cs = false → markerFind cs = none
  | [], _ => rfl
  | c :: cs, h => by
      obtain ⟨h1, h2⟩ := hasSub_cons_false h
      simp only [markerFind]
      rw [markerMatchAt_eq_none h1, markerFind_eq_none h2]

/-! ## Lemmas about the captured health digits -/

theorem isWS_eq_false_of_isDigit {c : Char} (h : c.isDigit = true) :
    isWS c = false := by
  rcases Bool.eq_false_or_eq_true (isWS c) with ht | hf
  · exfalso
    unfold isWS at ht
    simp only [Bool.or_eq_true, decide_eq_true_eq] at ht
    rcases ht with ((((h1 | h1) | h1) | h1) | h1) | h1 <;>
      (subst h1; exact absurd h (by decide))
  · exact hf

theorem jsParseInt_all_digits {h : List Char} (hne : h ≠ [])
    (hd : ∀ c ∈ h, Char.isDigit c = true) :
    jsParseInt (String.mk h) = some ((digitsToNat h : Int)) := by
  obtain ⟨a, as, rfl⟩ := List.exists_cons_of_ne_nil hne
  have ha : Char.isDigit a = true := hd a (by simp)
  have hscrut : (String.mk (a :: as)).data.dropWhile isWS = a :: as := by
    show (a :: as).dropWhile isWS = a :: as
    rw [List.dropWhile_cons, isWS_eq_false_of_isDigit ha]
    simp
  have h1 : ¬a = '-' := fun e => by rw [e] at ha; exact absurd ha (by decide)
  have h2 : ¬a = '+' := fun e => by rw [e] at ha; exact absurd ha (by decide)
  have htake : (a :: as).takeWhile Char.isDigit = a :: as :=
    List.takeWhile_eq_self_iff.mpr hd
  unfold jsParseInt
  rw [hscrut]
  simp only [jsParseIntChars]
  rw [if_neg h1, if_neg h2, htake]
  simp

theorem markerMatchAt_digits {cs h inv post : List Char}
    (e : markerMatchAt cs = some (h, inv, post)) :
    h ≠ [] ∧ ∀ c ∈ h, Char.isDigit c = true := by
  unfold markerMatchAt at e
  obtain ⟨r1, -, e⟩ := Option.bind_eq_some.mp e
  obtain ⟨r2, -, e⟩ := Option.bind_eq_some.mp e
  by_cases hds : (r2.takeWhile Char.isDigit).isEmpty = true
  · rw [if_pos hds] at e; cases e
  · rw [if_neg hds] at e
    obtain ⟨r3, -, e⟩ := Option.bind_eq_some.mp e
    obtain ⟨x, -, e⟩ := Option.map_eq_some'.mp e
    obtain ⟨e1, -⟩ := Prod.mk.injEq .. ▸ e
    subst e1
    refine ⟨fun hnil => hds ?_, fun c hc => List.mem_takeWhile_imp hc⟩
    rw [hnil]
    rfl

theorem markerFind_digits :
    ∀ {cs pre h inv post : List Char},
      markerFind cs = some (pre, h, inv, post) →
      h ≠ [] ∧ ∀ c ∈ h, Char.isDigit c = true
  | [], _, _, _, _, e => by cases e
  | c :: cs, pre, h, inv, post, e => by
      simp only [markerFind] at e
      rcases e1 : markerMatchAt (c :: cs) with _ | ⟨h', inv', post'⟩
      · rw [e1] at e
        rcases e2 : markerFind cs with _ | ⟨pre'', h'', inv'', post''⟩
        · rw [e2] at e; cases e
        · rw [e2] at e
          simp only [Option.some.injEq, Prod.mk.injEq] at e
          obtain ⟨-, e3, -, -⟩ := e
          subst e3
          exact markerFind_digits e2
      · rw [e1] at e
        simp only [Option.some.injEq, Prod.mk.injEq] at e
        obtain ⟨-, e3, -, -⟩ := e
        subst e3
        exact markerMatchAt_digits e1

/-! ## Unfolding lemmas for the final parse -/

theorem parseAndUpdateState_of_none {st : GameState} {s : String}
    (h : markerFind s.data = none) :
    parseAndUpdateState st s = (st, jsTrim s) := by
  unfold parseAndUpdateState
  rw [h]

theorem parseAndUpdateState_of_some {st : GameState} {s : String}
    {pre h inv post : List Char}
    (e : markerFind s.data = some (pre, h, inv, post)) :
    parseAndUpdateState st s
      = (applyMatch st h inv, String.mk (trimChars (pre ++ post))) := by
  unfold parseAndUpdateState
  rw [e]

theorem applyMatch_of_parse_none {st : GameState} {healthCap invCap : List Char}
    (h : jsParseInt (String.mk healthCap) = none) :
    applyMatch st healthCap invCap = ⟨st.health, parseInventory invCap⟩ := by
  unfold applyMatch
  rw [h]

theorem applyMatch_of_parse_some {st : GameState} {healthCap invCap : List Char}
    {v : Int} (h : jsParseInt (String.mk healthCap) = some v) :
    applyMatch st healthCap invCap = ⟨v, parseInventory invCap⟩ := by
  unfold applyMatch
  rw [h]

theorem parseInventory_good (inv : List Char) :
    ∀ item ∈ parseInventory inv, item ≠ "" ∧ jsTrim item = item := by
  intro item hitem
  unfold parseInventory at hitem
  by_cases hinv : inv.isEmpty = true
  · rw [if_pos hinv] at hitem; cases hitem
  · rw [if_neg hinv] at hitem
    obtain ⟨hmem, hne⟩ := List.mem_filter.mp hitem
    obtain ⟨raw, -, rfl⟩ := List.mem_map.mp hmem
    refine ⟨by simpa using hne, ?_⟩
    show String.mk (trimChars (trimChars raw)) = String.mk (trimChars raw)
    rw [trimChars_idem]

/-! ## Lemmas about the streaming loop -/

theorem streamLoop_gameState :
    ∀ (chunks : List String) (ts : TurnState) (acc : String),
      (streamLoop ts acc chunks).1.gameState = ts.gameState
  | [], _, _ => rfl
  | _ :: rest, _, _ => streamLoop_gameState rest _ _

theorem streamLoop_formDisabled :
    ∀ (chunks : List String) (ts : TurnState) (acc : String),
      (streamLoop ts acc chunks).1.formDisabled = ts.formDisabled
  | [], _, _ => rfl
  | _ :: rest, _, _ => streamLoop_formDisabled rest _ _

theorem streamLoop_acc :
    ∀ (chunks : List String) (ts : TurnState) (acc : String),
      (streamLoop ts acc chunks).2 = chunks.foldl (fun a c => a ++ c) acc
  | [], _, _ => rfl
  | _ :: rest, _, _ => streamLoop_acc rest _ _

theorem streamTrace_gameState :
    ∀ (chunks : List String) (ts : TurnState) (acc : String) (u : TurnState),
      u ∈ streamTrace ts acc chunks → u.gameState = ts.gameState
  | [], _, _, _, hu => absurd hu (List.not_mem_nil _)
  | c :: rest, ts, acc, u, hu => by
      rcases List.mem_cons.mp hu with rfl | hmem
      · rfl
      · exact streamTrace_gameState rest
          { ts with displayed := midStreamDisplay (acc ++ c) } (acc ++ c) u hmem

theorem streamTrace_displayed :
    ∀ (chunks : List String) (ts : TurnState) (acc : String),
      (streamTrace ts acc chunks).map TurnState.displayed
        = (accTexts acc chunks).map midStreamDisplay
  | [], _, _ => rfl
  | c :: rest, ts, acc => by
      simp only [streamTrace, accTexts, List.map_cons]
      rw [streamTrace_displayed rest _ _]

theorem runTurn_true_gameState (ts : TurnState) (chunks : List String) :
    (runTurn ts chunks true).gameState
      = (parseAndUpdateState ts.gameState
          (chunks.foldl (fun a c => a ++ c) "")).1 := by
  show (parseAndUpdateState
      (streamLoop { ts with formDisabled := true } "" chunks).1.gameState
      (streamLoop { ts with formDisabled := true } "" chunks).2).1 = _
  rw [streamLoop_gameState, streamLoop_acc]

/-! ## The claims -/

set_option maxRecDepth 8000

/-- C1 (corrected). The original claim — mid-stream, the displayed text is
everything strictly before the first occurrence of the start sentinel,
trimmed — fails: the streaming loop only strips a COMPLETE
`[STATUS]...[/STATUS]` span, so an incomplete marker leaks into the display
(see the counterexample). What does hold: every intermediate display is
exactly `midStreamDisplay` of the text accumulated so far — the accumulated
text with the span from the first start sentinel through the last end
sentinel removed when one is present, trimmed — and while the accumulated
text contains no end sentinel at all, nothing is removed: the display is the
whole trimmed accumulated text, partial marker included. -/
theorem claim_C1 (ts : TurnState) (chunks : List String) (s : String)
    (hpart : hasSub endSentinel s.data = false) :
    (streamTrace ts "" chunks).map TurnState.displayed
        = (accTexts "" chunks).map midStreamDisplay
      ∧ midStreamDisplay s = jsTrim s :=
  ⟨streamTrace_displayed chunks ts "", midStreamDisplay_eq_trim hpart⟩

/-- C1 witness: the amended statement at a concrete stream and a concrete
incomplete-marker text. -/
theorem claim_C1_witness :
    (streamTrace initialTurn "" ["A", " shadow"]).map TurnState.displayed
        = (accTexts "" ["A", " shadow"]).map midStreamDisplay
      ∧ midStreamDisplay "Hi\n[STATUS]HEAL" = jsTrim "Hi\n[STATUS]HEAL" :=
  claim_C1 initialTurn ["A", " shadow"] "Hi\n[STATUS]HEAL" (by decide)

/-- C1 counterexample: the stream delivers one fragment whose text contains
an (incomplete) start sentinel; the claim requires the intermediate display
to be `"Hi"`, but the code publishes the whole trimmed text, start sentinel
and all. -/
theorem claim_C1_counterexample :
    (streamTrace initialTurn "" ["Hi\n[STATUS]HEALTH:5"]).map TurnState.displayed
        = ["Hi\n[STATUS]HEALTH:5"]
      ∧ hasSub startSentinel ("Hi\n[STATUS]HEALTH:5" : String).data = true
      ∧ ("Hi\n[STATUS]HEALTH:5" : String) ≠ "Hi" :=
  ⟨by decide, by decide, by decide⟩

/-- C2 (confirmed). A completed turn whose accumulated text is
`"You enter a cave.\n[STATUS]HEALTH:75,INVENTORY:torch[/STATUS]"` ends with
the final display `"You enter a cave."`, committed health 75, committed
inventory `["torch"]` (and the form re-enabled). -/
theorem claim_C2 :
    runTurn initialTurn
        ["You enter a cave.\n[STATUS]HEALTH:75,INVENTORY:torch[/STATUS]"] true
      = ⟨⟨75, ["torch"]⟩, false, "You enter a cave."⟩ := by decide

/-- C3 (corrected). The original claim — start sentinel present but no
complete marker implies the final display is everything before the start
sentinel — fails: when the status regex does not match, `replace` removes
nothing, so the final display is the whole trimmed text, truncated marker
included (see the counterexample; §9 of the spec itself flags this). The
rest of the claim holds and is amended only in the display clause: with the
start sentinel present but no regex match, no record is produced, the state
is unchanged, and the final display is the full trimmed text. -/
theorem claim_C3 (st : GameState) (s : String)
    (_hstart : hasSub startSentinel s.data = true)
    (hmk : markerFind s.data = none) :
    parseAndUpdateState st s = (st, jsTrim s) :=
  parseAndUpdateState_of_none hmk

/-- C3 witness: the amended statement at the truncated-marker text of §8. -/
theorem claim_C3_witness :
    hasSub startSentinel ("A shadow looms.\n[STATUS]HEALTH:5" : String).data = true
      ∧ parseAndUpdateState initialState "A shadow looms.\n[STATUS]HEALTH:5"
          = (initialState, jsTrim "A shadow looms.\n[STATUS]HEALTH:5") :=
  ⟨by decide,
    claim_C3 initialState "A shadow looms.\n[STATUS]HEALTH:5" (by decide) (by decide)⟩

/-- C3 counterexample: on `"A shadow looms.\n[STATUS]HEALTH:5"` the final
display equals the whole text — which still contains the start sentinel —
not `"A shadow looms."`; the state is indeed unchanged. -/
theorem claim_C3_counterexample :
    parseAndUpdateState initialState "A shadow looms.\n[STATUS]HEALTH:5"
        = (initialState, "A shadow looms.\n[STATUS]HEALTH:5")
      ∧ hasSub startSentinel
          ((parseAndUpdateState initialState
            "A shadow looms.\n[STATUS]HEALTH:5").2).data = true
      ∧ ("A shadow looms.\n[STATUS]HEALTH:5" : String) ≠ "A shadow looms." :=
  ⟨by decide, by decide, by decide⟩

/-- C4 (confirmed). During the streaming loop the game state never changes —
every intermediate turn state carries the caller's game state unchanged —
and the state a completed turn ends with is the result of the single final
`parseAndUpdateState` call on the accumulated text: the committed value
changes at most once, and only at the finalizing step. -/
theorem claim_C4 (ts : TurnState) (chunks : List String) :
    ((streamTrace ts "" chunks).all fun u => decide (u.gameState = ts.gameState))
        = true
      ∧ (runTurn ts chunks true).gameState
          = (parseAndUpdateState ts.gameState
              (chunks.foldl (fun a c => a ++ c) "")).1 := by
  constructor
  · rw [List.all_eq_true]
    intro u hu
    simpa using streamTrace_gameState chunks ts "" u hu
  · exact runTurn_true_gameState ts chunks

/-- C5 (code bug). When the fragment source fails before completion the
partial display and the game state are indeed retained — but the submit
listener has no try/catch, so the thrown stream error skips
`setFormDisabled(false)` and the form stays disabled forever: the controller
does NOT return to Idle, contradicting the claim's release of the busy gate.
This theorem evaluates the turn at the failing input: the final form state
is still disabled. -/
theorem claim_C5 :
    runTurn initialTurn ["A shadow looms.\n[STATUS]HEALTH:5"] false
      = ⟨initialState, true, "A shadow looms.\n[STATUS]HEALTH:5"⟩ := by decide

/-- C6 (confirmed). The empty-inventory marker commits an empty sequence,
and in general the code's inventory path (`match[2] ? split/trim/filter : []`)
agrees with the spec's rule — split on commas, trim each item, drop items
empty after trimming — on every capture, the falsy shortcut included. -/
theorem claim_C6 :
    (parseAndUpdateState initialState
        "[STATUS]HEALTH:100,INVENTORY:[/STATUS]").1.inventory = []
      ∧ ∀ inv : List Char, parseInventory inv = specInventoryParse inv := by
  refine ⟨by decide, fun inv => ?_⟩
  unfold parseInventory specInventoryParse
  by_cases hinv : inv.isEmpty = true
  · rw [if_pos hinv, List.isEmpty_iff.mp hinv]
    rfl
  · rw [if_neg hinv]

/-- C7 (confirmed). With no start sentinel anywhere in the completed text the
status regex cannot match, so the final display is the trimmed input and the
state is returned unchanged. -/
theorem claim_C7 (st : GameState) (s : String)
    (h : hasSub startSentinel s.data = false) :
    parseAndUpdateState st s = (st, jsTrim s) :=
  parseAndUpdateState_of_none (markerFind_eq_none h)

/-- C7 witness: a marker-free text round-trips. -/
theorem claim_C7_witness :
    hasSub startSentinel ("Hello world" : String).data = false
      ∧ parseAndUpdateState ⟨42, ["map"]⟩ "  Hello world "
          = (⟨42, ["map"]⟩, jsTrim "  Hello world ") :=
  ⟨by decide, claim_C7 ⟨42, ["map"]⟩ "  Hello world " (by decide)⟩

/-- C8 (confirmed, at the status-parser level). Given the captured fields of
a matched marker, if `parseInt` of the health capture is `NaN` the commit
retains the previous health unchanged while the inventory capture is still
parsed and committed in full — per-subfield degradation, with no failure
path (the function is total). Note the regex only ever captures a non-empty
digit run for health, so inside `parseAndUpdateState` this fallback is
unreachable (claim C10); the branch itself behaves exactly as specified. -/
theorem claim_C8 (st : GameState) (healthCap invCap : List Char)
    (h : jsParseInt (String.mk healthCap) = none) :
    (applyMatch st healthCap invCap).health = st.health
      ∧ (applyMatch st healthCap invCap).inventory = parseInventory invCap := by
  rw [applyMatch_of_parse_none h]
  exact ⟨rfl, rfl⟩

/-- C8 witness: an unparsable health capture next to a parsable inventory. -/
theorem claim_C8_witness :
    jsParseInt (String.mk ['x']) = none
      ∧ (applyMatch ⟨57, []⟩ ['x'] ("torch".data)).health = 57
      ∧ (applyMatch ⟨57, []⟩ ['x'] ("torch".data)).inventory
          = parseInventory ("torch".data) :=
  ⟨by decide, claim_C8 ⟨57, []⟩ ['x'] ("torch".data) (by decide)⟩

/-- C9 (confirmed). Every reachable game state — the initial one and
whatever successive completed turns commit — has non-negative health and
only non-empty, trimmed inventory entries; and a turn whose text the status
regex does not match leaves the state exactly as it was (no partial
mutation). -/
theorem claim_C9 (st : GameState) (hst : Reachable st) :
    GoodState st
      ∧ ∀ s : String, markerFind s.data = none →
          (parseAndUpdateState st s).1 = st := by
  refine ⟨?_, fun s e => by rw [parseAndUpdateState_of_none e]⟩
  induction hst with
  | init =>
      exact ⟨by decide, fun item hitem => absurd hitem (by simp [initialState])⟩
  | step st' s hr ih =>
      rcases e : markerFind s.data with _ | ⟨pre, h, inv, post⟩
      · rw [parseAndUpdateState_of_none e]
        exact ih
      · rw [parseAndUpdateState_of_some e]
        obtain ⟨hne, hdig⟩ := markerFind_digits e
        rw [applyMatch_of_parse_some (jsParseInt_all_digits hne hdig)]
        exact ⟨Int.natCast_nonneg _, parseInventory_good inv⟩

/-- C9 witness: the invariant and the frame condition at the initial state. -/
theorem claim_C9_witness :
    GoodState initialState
      ∧ ∀ s : String, markerFind s.data = none →
          (parseAndUpdateState initialState s).1 = initialState :=
  claim_C9 initialState Reachable.init

/-- C10 (confirmed, implicit claim). Whenever the final-pass regex matches,
the health capture is a non-empty digit run, so `parseInt` on it is never
`NaN`: the retain-previous-health fallback is unreachable, and every matched
marker commits both fields — the parsed health value (whatever the previous
state) and the parsed inventory. -/
theorem claim_C10 (s : String) (pre h inv post : List Char)
    (e : markerFind s.data = some (pre, h, inv, post)) :
    jsParseInt (String.mk h) = some ((digitsToNat h : Int))
      ∧ ∀ st : GameState,
          (parseAndUpdateState st s).1 = ⟨(digitsToNat h : Int), parseInventory inv⟩ := by
  obtain ⟨hne, hdig⟩ := markerFind_digits e
  have hp := jsParseInt_all_digits hne hdig
  exact ⟨hp, fun st => by rw [parseAndUpdateState_of_some e, applyMatch_of_parse_some hp]⟩

/-- C10 witness: a concrete matched marker, its health parsed to 80. -/
theorem claim_C10_witness :
    jsParseInt (String.mk ("80".data)) = some 80
      ∧ ∀ st : GameState,
          (parseAndUpdateState st "[STATUS]HEALTH:80,INVENTORY:torch[/STATUS]").1
            = ⟨80, parseInventory ("torch".data)⟩ :=
  claim_C10 "[STATUS]HEALTH:80,INVENTORY:torch[/STATUS]" [] ("80".data)
    ("torch".data) [] (by decide)

end Adventure
